import Mathlib

/-!
Verification of the event bridge of hellomouse/yay-browsers.

The remote-side queue (class RemoteEventBridgeImpl in src/lib/event-bridge.ts)
is modelled as an explicit state machine: the instance fields become a record,
the scheduler (microtask queue and timers) becomes an action type, and promise
resolutions / thrown errors become an effect trace.  The host-side EventBridge
worker loop and the launcher (src/lib/chrome-launcher.ts) follow further below.
-/

/-- Observable promise effects of one remote-queue step: resolution of the poll
promise carrying the given id (with some events, or with null), or a thrown
Error with the given message. -/
inductive PromiseEff (T : Type) where
  | resolve (pollId : Nat) (result : Option (List T))
  | throwErr (msg : String)
  deriving Repr, DecidableEq

/-- State of the remote-side class RemoteEventBridgeImpl (src/lib/event-bridge.ts,
lines 14-70).  events, waiter and deferredNotify mirror the instance fields
events, _waiter and _deferredNotify.  The waiter closure is identified by the
numeric id of the poll call that registered it: the source distinguishes waiter
closures by identity (Object.is), and ids are fresh per poll, so id equality
models closure identity.  microtasks counts the coalescing microtasks queued by
queueMicrotask and not yet run; timeouts lists the waiter ids whose setTimeout
is still scheduled (clearTimeout, or firing, removes the entry); nextId is the
supply of fresh poll-promise ids. -/
structure RemoteEventBridgeImpl (T : Type) where
  events : List T
  waiter : Option Nat
  deferredNotify : Bool
  microtasks : Nat
  timeouts : List Nat
  nextId : Nat
  deriving Repr, DecidableEq

variable {T : Type}

/-- A freshly constructed bridge (remoteCreateBridge): empty queue, no waiter,
no deferred notification. -/
def RemoteEventBridgeImpl.fresh (T : Type) : RemoteEventBridgeImpl T :=
  { events := [], waiter := none, deferredNotify := false,
    microtasks := 0, timeouts := [], nextId := 0 }

/-- post(event) (lines 19-30): push the event; if a waiter is registered and no
coalescing microtask is pending (_deferredNotify is false), set _deferredNotify
and queue exactly one microtask. -/
def RemoteEventBridgeImpl.post (s : RemoteEventBridgeImpl T) (e : T) :
    RemoteEventBridgeImpl T :=
  let s1 := { s with events := s.events ++ [e] }
  if s1.waiter.isSome && !s1.deferredNotify then
    { s1 with deferredNotify := true, microtasks := s1.microtasks + 1 }
  else s1

/-- The waiter closure registered by poll (lines 44-53), identified by the poll
id w it resolves: if the queue is empty it throws; otherwise it cancels the
timeout (clearTimeout timeoutId), drains the queue, clears _waiter and resolves
the poll promise with the drained events. -/
def RemoteEventBridgeImpl.runWaiter (s : RemoteEventBridgeImpl T) (w : Nat) :
    RemoteEventBridgeImpl T × List (PromiseEff T) :=
  if s.events.isEmpty then
    (s, [.throwErr "waiter resumed with no events"])
  else
    ({ s with events := [], waiter := none, timeouts := s.timeouts.erase w },
     [.resolve w (some s.events)])

/-- poll(timeout) (lines 32-69).  A fresh id is allocated for this call's
promise.  If the queue is non-empty: drain and resolve immediately.  Otherwise,
if a waiter is already registered: throw (the promise rejects).  Otherwise
register this call's waiter and schedule its timeout. -/
def RemoteEventBridgeImpl.poll (s : RemoteEventBridgeImpl T) :
    RemoteEventBridgeImpl T × List (PromiseEff T) :=
  let id := s.nextId
  let s1 := { s with nextId := s.nextId + 1 }
  if !s1.events.isEmpty then
    ({ s1 with events := [] }, [.resolve id (some s1.events)])
  else if s1.waiter.isSome then
    (s1, [.throwErr "cannot handle multiple waiters"])
  else
    ({ s1 with waiter := some id, timeouts := s1.timeouts ++ [id] }, [])

/-- The coalescing microtask queued by post (lines 23-28): reset _deferredNotify,
then invoke the currently registered waiter if one exists and events are
pending. -/
def RemoteEventBridgeImpl.microtask (s : RemoteEventBridgeImpl T) :
    RemoteEventBridgeImpl T × List (PromiseEff T) :=
  let s1 := { s with microtasks := s.microtasks - 1, deferredNotify := false }
  match s1.waiter with
  | some w => if !s1.events.isEmpty then s1.runWaiter w else (s1, [])
  | none => (s1, [])

/-- The setTimeout callback scheduled by poll for waiter id w (lines 55-66).
Firing removes the timer from the scheduled set; the body is a no-op unless the
registered waiter is still this very closure (Object.is(this._waiter, waiter));
if it is, clear the waiter and resolve with the drained events if any are
present, else with null. -/
def RemoteEventBridgeImpl.timeoutFire (s : RemoteEventBridgeImpl T) (w : Nat) :
    RemoteEventBridgeImpl T × List (PromiseEff T) :=
  let s1 := { s with timeouts := s.timeouts.erase w }
  if s1.waiter = some w then
    let s2 := { s1 with waiter := none }
    if !s2.events.isEmpty then
      ({ s2 with events := [] }, [.resolve w (some s2.events)])
    else
      (s2, [.resolve w none])
  else (s1, [])

/-- Schedulable actions against one remote queue: a remote-side post call, a
host-side poll call, the queued coalescing microtask running, or a scheduled
timeout firing. -/
inductive RQAction (T : Type) where
  | post (e : T)
  | poll
  | microtask
  | timeoutFire (w : Nat)
  deriving Repr, DecidableEq

/-- One scheduler step.  post and poll may occur at any time; the microtask runs
only while queued; a timeout fires only while scheduled.  Returns none when the
action is not enabled in the given state. -/
def RemoteEventBridgeImpl.step (s : RemoteEventBridgeImpl T) (a : RQAction T) :
    Option (RemoteEventBridgeImpl T × List (PromiseEff T)) :=
  match a with
  | .post e => some (s.post e, [])
  | .poll => some s.poll
  | .microtask => if s.microtasks ≠ 0 then some s.microtask else none
  | .timeoutFire w => if w ∈ s.timeouts then some (s.timeoutFire w) else none

/-- Run a list of scheduler actions from a state, skipping disabled actions and
collecting the promise effects in order. -/
def RemoteEventBridgeImpl.run (s : RemoteEventBridgeImpl T) :
    List (RQAction T) → RemoteEventBridgeImpl T × List (PromiseEff T)
  | [] => (s, [])
  | a :: rest =>
    match s.step a with
    | none => s.run rest
    | some (s', effs) =>
      let (s'', effs') := s'.run rest
      (s'', effs ++ effs')

/-- The poll ids resolved in an effect trace. -/
def resolveIds : List (PromiseEff T) → List Nat
  | [] => []
  | .resolve i _ :: rest => i :: resolveIds rest
  | .throwErr _ :: rest => resolveIds rest

/-- One outcome of the race between the cancellation signal and one poll
invocation, as observed by an iteration of the EventBridge worker loop
(src/lib/event-bridge.ts, lines 97-115): the CANCELLED sentinel won, poll
resolved with null, poll resolved with a batch of events, or poll rejected
(targetClose records whether the error was a TargetCloseError). -/
inductive PollOutcome (T : Type) where
  | cancelled
  | pollNull
  | events (l : List T)
  | pollError (targetClose : Bool)
  deriving Repr, DecidableEq

/-- Notifications the EventBridge emits to its subscribers. -/
inductive Emission (T : Type) where
  | event (e : T)
  | dispose
  deriving Repr, DecidableEq

/-- Phase of the worker promise: looping (inside while (true)), releasing
(awaiting this.handle.dispose() during teardown), done (the finally block has
run and the worker promise is settled). -/
inductive WorkerPhase where
  | looping
  | releasing
  | done
  deriving Repr, DecidableEq

/-- Host-side state of one EventBridge (src/lib/event-bridge.ts, lines 80-142):
the active flag, whether _cancel was invoked (the cancellation promise is
resolved), the worker phase, the notifications emitted so far in order, and the
number of console.warn calls made for poll failures. -/
structure EventBridgeHost (T : Type) where
  active : Bool
  cancelRequested : Bool
  phase : WorkerPhase
  emissions : List (Emission T)
  warnings : Nat
  deriving Repr, DecidableEq

/-- State right after the EventBridge constructor returns: active, cancellation
not requested, worker loop entered, nothing emitted. -/
def EventBridgeHost.init (T : Type) : EventBridgeHost T :=
  { active := true, cancelRequested := false, phase := .looping,
    emissions := [], warnings := 0 }

/-- The finally block of the worker promise (lines 123-126): set active to
false and emit the dispose notification; the worker promise settles. -/
def EventBridgeHost.finalize (s : EventBridgeHost T) : EventBridgeHost T :=
  { s with active := false, phase := .done
           emissions := s.emissions ++ [.dispose] }

/-- Breaking out of the while loop (lines 107 and 110) into teardown (lines
116-122): when needsDispose is still true, await this.handle.dispose() (phase
releasing); otherwise fall through to the finally block at once. -/
def EventBridgeHost.exitLoop (s : EventBridgeHost T) (needsDispose : Bool) :
    EventBridgeHost T :=
  if needsDispose then { s with phase := .releasing } else s.finalize

/-- Schedulable host-side events: the race of one loop iteration settling with
an outcome, the awaited handle.dispose() call of teardown completing
(successfully or not), or a call to dispose() on the bridge. -/
inductive HostAction (T : Type) where
  | race (o : PollOutcome T)
  | releaseComplete (ok : Bool)
  | disposeCall
  deriving Repr, DecidableEq

/-- One host-side step.  dispose() (lines 134-137) resolves the cancellation
promise — an idempotent flag set — and then awaits the already-running worker.
While looping, a race outcome is consumed as in lines 98-114: CANCELLED (which
can win only once cancellation was requested) breaks with needsDispose still
true; null continues the loop; a batch of events is emitted in order; a poll
rejection sets needsDispose to false if it is a TargetCloseError and otherwise
logs a warning, and breaks either way.  While releasing, the completion of
handle.dispose() — success or swallowed failure — falls through to the finally
block.  Returns none when the action is not enabled. -/
def EventBridgeHost.step (s : EventBridgeHost T) (a : HostAction T) :
    Option (EventBridgeHost T) :=
  match a with
  | .disposeCall => some { s with cancelRequested := true }
  | .race o =>
    match s.phase with
    | .looping =>
      match o with
      | .cancelled =>
        if s.cancelRequested then some (s.exitLoop true) else none
      | .pollNull => some s
      | .events l =>
        some { s with emissions := s.emissions ++ l.map Emission.event }
      | .pollError targetClose =>
        if targetClose then some (s.exitLoop false)
        else some ({ s with warnings := s.warnings + 1 }.exitLoop true)
    | _ => none
  | .releaseComplete _ =>
    match s.phase with
    | .releasing => some s.finalize
    | _ => none

/-- Run a list of host actions from a state, skipping disabled actions. -/
def EventBridgeHost.run (s : EventBridgeHost T) :
    List (HostAction T) → EventBridgeHost T
  | [] => s
  | a :: rest =>
    match s.step a with
    | none => s.run rest
    | some s' => s'.run rest

/-- Number of dispose notifications in an emission trace. -/
def disposeCount : List (Emission T) → Nat
  | [] => 0
  | .dispose :: rest => disposeCount rest + 1
  | .event _ :: rest => disposeCount rest

/-- The distinct failure reasons of launchChrome (src/lib/chrome-launcher.ts),
with the dynamic parts of the corresponding Error message as payload. -/
inductive LaunchFailure where
  | startupTimeout
  | bufferOverflow
  | listenFailure (log : String)
  | addressParseError (raw : String)
  | protocolMismatch (protocol : String)
  | portMismatch (expected : Nat) (got : Option Nat)
  | prematureExit (detail : String) (log : String)
  deriving Repr, DecidableEq

/-- The message of the Error each failure path rejects with, following the
string constructions in src/lib/chrome-launcher.ts (the JSON.stringify around
the unparsable address is modelled as plain quoting). -/
def LaunchFailure.message : LaunchFailure → String
  | .startupTimeout => "timed out waiting for browser"
  | .bufferOverflow => "no debug address found after 8192 bytes"
  | .listenFailure log => "devtools server listen failed:\n" ++ log
  | .addressParseError raw =>
      "failed to parse returned address \"" ++ raw ++ "\""
  | .protocolMismatch p => "unexpected protocol: " ++ p
  | .portMismatch expected got =>
      "bad port: expected " ++ toString expected ++ ", got " ++
        (got.map toString).getD ""
  | .prematureExit detail log =>
      "browser unexpectedly exited with " ++ detail ++ "\nlast log:\n" ++ log

/-- Constructor index of a failure reason, used to state that the seven failure
paths reject with pairwise distinct reasons. -/
def LaunchFailure.kind : LaunchFailure → Nat
  | .startupTimeout => 0
  | .bufferOverflow => 1
  | .listenFailure _ => 2
  | .addressParseError _ => 3
  | .protocolMismatch _ => 4
  | .portMismatch _ _ => 5
  | .prematureExit _ _ => 6

/-- Model of a parsed WHATWG URL, restricted to the properties launchChrome
reads.  protocol carries the trailing colon as in the URL API.  port models the
URL.port property of the canonical serialization: none stands for the empty
string, which the URL API yields both when the address carries no explicit port
component and when the written port equals the scheme's default; since URL.port
is otherwise the canonical decimal rendering of the port number, the string
comparisons of the source are modelled as Nat comparisons. -/
structure URLModel where
  protocol : String
  port : Option Nat
  rest : String
  deriving Repr, DecidableEq

/-- Primitive actions the launch promise executor performs, in order: remove
the stderr/exit listeners and clear the startup timer, kill the spawned
process, reject the launch promise with a failure, or resolve it. -/
inductive ProcAction where
  | removeListeners
  | kill
  | reject (f : LaunchFailure)
  | resolveLaunch (addr : URLModel) (port : Nat)
  deriving Repr, DecidableEq

/-- bail(...) (lines 117-121): remove the listeners, kill the process, then
reject the promise. -/
def bail (f : LaunchFailure) : List ProcAction :=
  [.removeListeners, .kill, .reject f]

/-- Match result of the scan regex over stderr text. -/
inductive ScanResult where
  | errorMatch
  | addressMatch (addr : String)
  | noMatch
  deriving Repr, DecidableEq

/-- Match of the scan regex (line 64) against one complete stderr line, on its
character sequence (the model identifies the buffer's UTF-8 bytes with
characters).  The address alternative is anchored at line start and requires at
least one further character (.+?), so on a line carrying the DevTools
announcement it wins at position 0 and captures the remainder of the line; the
error alternative matches any line ending in the fixed diagnostic. -/
def lineMatch (line : String) : ScanResult :=
  let p := "DevTools listening on ".data
  if p.isPrefixOf line.data ∧ p.length < line.data.length then
    .addressMatch (String.mk (line.data.drop p.length))
  else if "Cannot start http server for devtools.".data.isSuffixOf line.data
  then
    .errorMatch
  else .noMatch

/-- First match over the buffer's complete lines, leftmost (earliest) line
first, as regex.exec finds the leftmost match of the whole buffer text. -/
def scanLines : List String → ScanResult
  | [] => .noMatch
  | line :: rest =>
    match lineMatch line with
    | .noMatch => scanLines rest
    | r => r

/-- The buffer content rendered back to text, as buffer.toString() does for the
log payloads of failure messages. -/
def bufferText (lines : List String) : String :=
  String.intercalate "\n" lines

/-- State of one pending launch promise: the complete (newline-terminated)
lines accumulated in the scan buffer, the write pointer ptr (bytes copied so
far), and whether the promise has settled, i.e. removeListeners ran: the
startup timer is cleared and the stderr/exit listeners are detached. -/
structure LaunchState where
  lines : List String
  ptr : Nat
  settled : Bool
  deriving Repr, DecidableEq

/-- The state when the launch promise executor starts: empty buffer, listeners
attached. -/
def LaunchState.start : LaunchState :=
  { lines := [], ptr := 0, settled := false }

/-- External events that can reach the pending launch: a stderr data chunk (its
byte count and the complete lines it finishes), the startup timer firing, or
the process exiting (detail renders code ?? signal). -/
inductive LaunchEvent where
  | stderrChunk (bytes : Nat) (newLines : List String)
  | timeoutFire
  | procExit (detail : String)
  deriving Repr, DecidableEq

/-- Protocol and port validation of the announced address (lines 92-100).
Returns none when the address is accepted.  The source computes
(addr.port || defaultPort): URL.port is the empty string — falsy — when no
explicit port survives in the canonical form, in which case the scheme default
(443 for wss:, 80 for ws:) is compared against the requested port. -/
def validateAddress (addr : URLModel) (port : Nat) : Option LaunchFailure :=
  if !(addr.protocol = "ws:" || addr.protocol = "wss:") then
    some (.protocolMismatch addr.protocol)
  else
    let defaultPort : Nat := if addr.protocol = "wss:" then 443 else 80
    if addr.port.getD defaultPort ≠ port then
      some (.portMismatch port addr.port)
    else
      none

/-- The address branch of stderrListener (lines 81-106): remove the listeners,
parse the announced address with the given parser (modelling new URL, which is
an external library), then validate protocol and port; each failure bails (kill
before reject), acceptance resolves the launch. -/
def handleAddress (parse : String → Option URLModel) (port : Nat)
    (addrString : String) : List ProcAction :=
  match parse addrString with
  | none => .removeListeners :: bail (.addressParseError addrString)
  | some addr =>
    match validateAddress addr port with
    | some f => .removeListeners :: bail f
    | none => [.removeListeners, .resolveLaunch addr port]

/-- stderrListener (lines 70-107) on one data chunk: advance the write pointer
and append the finished lines; if the buffer is full (ptr reaches 8192 bytes),
bail with the overflow failure before scanning; otherwise scan the complete
lines for the first regex match and act on it. -/
def stderrListener (parse : String → Option URLModel) (port : Nat)
    (st : LaunchState) (bytes : Nat) (newLines : List String) :
    LaunchState × List ProcAction :=
  let ptr := st.ptr + bytes
  let lines := st.lines ++ newLines
  if ptr ≥ 8192 then
    ({ lines := lines, ptr := ptr, settled := true }, bail .bufferOverflow)
  else
    match scanLines lines with
    | .errorMatch =>
      ({ lines := lines, ptr := ptr, settled := true },
       bail (.listenFailure (bufferText lines)))
    | .addressMatch a =>
      ({ lines := lines, ptr := ptr, settled := true },
       handleAddress parse port a)
    | .noMatch => ({ lines := lines, ptr := ptr, settled := false }, [])

/-- Dispatch of one external event to the pending launch (lines 63-124).  Once
settled, the timer is cleared and the listeners detached, so no further event
reaches the executor. -/
def handleLaunchEvent (parse : String → Option URLModel) (port : Nat)
    (st : LaunchState) (ev : LaunchEvent) : LaunchState × List ProcAction :=
  if st.settled then (st, [])
  else
    match ev with
    | .stderrChunk bytes newLines => stderrListener parse port st bytes newLines
    | .timeoutFire => ({ st with settled := true }, bail .startupTimeout)
    | .procExit detail =>
      ({ st with settled := true },
       bail (.prematureExit detail (bufferText st.lines)))

/-- killed records whether a kill action occurred earlier in the list; the
check holds when every reject action is preceded by a kill. -/
def killBeforeReject : Bool → List ProcAction → Bool
  | _, [] => true
  | _, .kill :: rest => killBeforeReject true rest
  | killed, .reject _ :: rest => killed && killBeforeReject killed rest
  | killed, _ :: rest => killBeforeReject killed rest

/-- The constructor indices of the failures rejected in an action list. -/
def rejectedKinds : List ProcAction → List Nat
  | [] => []
  | .reject f :: rest => f.kind :: rejectedKinds rest
  | _ :: rest => rejectedKinds rest

/-- Concrete parser probing the launch failure paths: it models new URL on the
two well-formed addresses exercised in the scenarios and fails on everything
else. -/
def launchProbeParse : String → Option URLModel :=
  fun a =>
    if a = "http://127.0.0.1:9222/x" then
      some { protocol := "http:", port := some 9222, rest := "127.0.0.1/x" }
    else if a = "ws://127.0.0.1:9221/x" then
      some { protocol := "ws:", port := some 9221, rest := "127.0.0.1/x" }
    else none

/-- Single-resolution invariant of the remote queue, relating a state to the
set of poll ids already resolved in the past: no id was resolved twice,
resolved ids and live ids are below the fresh-id supply, a resolved id is never
the registered waiter again, and the registered waiter's timeout stays
scheduled until the waiter is cleared. -/
def RQInv (s : RemoteEventBridgeImpl T) (resolved : List Nat) : Prop :=
  resolved.Nodup ∧
  (∀ i ∈ resolved, i < s.nextId) ∧
  (∀ i ∈ resolved, s.waiter ≠ some i) ∧
  (∀ w, s.waiter = some w → w < s.nextId ∧ w ∈ s.timeouts) ∧
  (∀ t ∈ s.timeouts, t < s.nextId)

/-- Teardown invariant of the host state: until the finally block has run, the
bridge is active and no dispose notification was emitted; afterwards it is
inactive and exactly one was emitted. -/
def teardownInv (s : EventBridgeHost T) : Prop :=
  (s.phase = .done → s.active = false ∧ disposeCount s.emissions = 1) ∧
  (s.phase ≠ .done → s.active = true ∧ disposeCount s.emissions = 0)

lemma RemoteEventBridgeImpl.run_nil (s : RemoteEventBridgeImpl T) :
    s.run [] = (s, []) := rfl

lemma RemoteEventBridgeImpl.run_cons_skip {s : RemoteEventBridgeImpl T}
    {a : RQAction T} (rest : List (RQAction T)) (h : s.step a = none) :
    s.run (a :: rest) = s.run rest := by
  simp only [RemoteEventBridgeImpl.run, h]

lemma RemoteEventBridgeImpl.run_cons_step {s s' : RemoteEventBridgeImpl T}
    {a : RQAction T} {effs : List (PromiseEff T)} (rest : List (RQAction T))
    (h : s.step a = some (s', effs)) :
    s.run (a :: rest) = ((s'.run rest).1, effs ++ (s'.run rest).2) := by
  simp only [RemoteEventBridgeImpl.run, h]

lemma RemoteEventBridgeImpl.run_append (s : RemoteEventBridgeImpl T)
    (l1 l2 : List (RQAction T)) :
    s.run (l1 ++ l2) =
      (((s.run l1).1.run l2).1, (s.run l1).2 ++ ((s.run l1).1.run l2).2) := by
  induction l1 generalizing s with
  | nil => simp [run_nil]
  | cons a rest ih =>
    rcases h : s.step a with _ | ⟨s', effs⟩
    · simpa [List.cons_append, run_cons_skip _ h] using ih s
    · simp [List.cons_append, run_cons_step _ h, ih s', List.append_assoc]

lemma RemoteEventBridgeImpl.run_posts_nowaiter (l : List T)
    (s : RemoteEventBridgeImpl T) (hw : s.waiter = none) :
    s.run (l.map RQAction.post) = ({ s with events := s.events ++ l }, []) := by
  induction l generalizing s with
  | nil => simp [run_nil]
  | cons e rest ih =>
    have hstep : s.step (.post e) = some (s.post e, []) := rfl
    have hpost : s.post e = { s with events := s.events ++ [e] } := by
      simp [RemoteEventBridgeImpl.post, hw]
    rw [List.map_cons, run_cons_step _ hstep, hpost, ih _ (by simp [hw])]
    simp

lemma RemoteEventBridgeImpl.run_posts_deferred (l : List T)
    (s : RemoteEventBridgeImpl T) (hd : s.deferredNotify = true) :
    s.run (l.map RQAction.post) = ({ s with events := s.events ++ l }, []) := by
  induction l generalizing s with
  | nil => simp [run_nil]
  | cons e rest ih =>
    have hstep : s.step (.post e) = some (s.post e, []) := rfl
    have hpost : s.post e = { s with events := s.events ++ [e] } := by
      simp [RemoteEventBridgeImpl.post, hd]
    rw [List.map_cons, run_cons_step _ hstep, hpost, ih _ (by simp [hd])]
    simp

/-- C1 counterexample: on a fresh queue with the empty sequence of posts, the
subsequent poll does not resolve immediately — it registers a Waiter. -/
theorem empty_posts_poll_registers_waiter :
    ((RemoteEventBridgeImpl.fresh Nat).run [.poll]).2 = [] ∧
    ((RemoteEventBridgeImpl.fresh Nat).run [.poll]).1.waiter = some 0 := by
  decide

/-- C1 (amended to nonempty sequences): for every nonempty sequence of posts
made on a fresh queue before any poll, a single subsequent poll resolves
immediately with exactly those events in order, no Waiter is registered, and
the queue is empty afterward. -/
lemma RemoteEventBridgeImpl.run_posts_fresh (l : List T) :
    (RemoteEventBridgeImpl.fresh T).run (l.map RQAction.post) =
      ({ events := l, waiter := none, deferredNotify := false,
         microtasks := 0, timeouts := [], nextId := 0 }, []) := by
  rw [RemoteEventBridgeImpl.run_posts_nowaiter l _ rfl]
  simp [RemoteEventBridgeImpl.fresh]

theorem nonempty_posts_single_poll_drains (l : List T) (h : l ≠ []) :
    (RemoteEventBridgeImpl.fresh T).run (l.map RQAction.post ++ [.poll]) =
      ({ events := [], waiter := none, deferredNotify := false,
         microtasks := 0, timeouts := [], nextId := 1 },
       [.resolve 0 (some l)]) := by
  have hstep :
      ({ events := l, waiter := none, deferredNotify := false,
         microtasks := 0, timeouts := [], nextId := 0 } :
        RemoteEventBridgeImpl T).step .poll =
        some ({ events := [], waiter := none, deferredNotify := false,
                microtasks := 0, timeouts := [], nextId := 1 },
              [.resolve 0 (some l)]) := by
    simp [RemoteEventBridgeImpl.step, RemoteEventBridgeImpl.poll, h]
  rw [RemoteEventBridgeImpl.run_append, RemoteEventBridgeImpl.run_posts_fresh]
  simp only [RemoteEventBridgeImpl.run_cons_step _ hstep,
    RemoteEventBridgeImpl.run_nil]
  simp

/-- C2 counterexample: while a first poll is pending (its Waiter registered), a
post followed by a second poll resolves the second poll with the queued event
instead of failing with a ContractViolation. -/
theorem second_poll_with_queued_events_resolves :
    ((RemoteEventBridgeImpl.fresh Nat).run [.poll, .post 5, .poll]).2 =
      [.resolve 1 (some [5])] := by
  decide

/-- C2 (amended): while a Waiter is registered, a second poll fails with the
ContractViolation only when the event queue is empty at the time of the call;
if events have been queued in the meantime, the second poll instead drains and
returns them without error. -/
theorem second_poll_contract_violation_iff_empty
    (s : RemoteEventBridgeImpl T) (hw : s.waiter.isSome) :
    (s.events = [] → s.poll =
      ({ s with nextId := s.nextId + 1 },
       [.throwErr "cannot handle multiple waiters"])) ∧
    (s.events ≠ [] → s.poll =
      ({ s with nextId := s.nextId + 1, events := [] },
       [.resolve s.nextId (some s.events)])) := by
  constructor
  · intro he
    simp [RemoteEventBridgeImpl.poll, he, hw]
  · intro he
    simp [RemoteEventBridgeImpl.poll, List.isEmpty_iff, he, hw]

/-- Witness for the amended C2 at a concrete state: with a Waiter registered
and an empty queue, poll throws; with an event queued, poll drains it. -/
theorem second_poll_contract_violation_iff_empty_witness :
    (⟨[], some 0, false, 0, [0], 1⟩ : RemoteEventBridgeImpl Nat).poll =
      (⟨[], some 0, false, 0, [0], 2⟩,
       [.throwErr "cannot handle multiple waiters"]) ∧
    (⟨[7], some 0, true, 1, [0], 1⟩ : RemoteEventBridgeImpl Nat).poll =
      (⟨[], some 0, true, 1, [0], 2⟩, [.resolve 1 (some [7])]) := by
  refine ⟨?_, ?_⟩
  · exact (second_poll_contract_violation_iff_empty
      (⟨[], some 0, false, 0, [0], 1⟩ : RemoteEventBridgeImpl Nat)
      (by decide)).1 (by decide)
  · exact (second_poll_contract_violation_iff_empty
      (⟨[7], some 0, true, 1, [0], 1⟩ : RemoteEventBridgeImpl Nat)
      (by decide)).2 (by decide)

@[simp] lemma resolveIds_nil : resolveIds ([] : List (PromiseEff T)) = [] := rfl

@[simp] lemma resolveIds_resolve (i : Nat) (r : Option (List T))
    (rest : List (PromiseEff T)) :
    resolveIds (.resolve i r :: rest) = i :: resolveIds rest := rfl

@[simp] lemma resolveIds_throw (msg : String) (rest : List (PromiseEff T)) :
    resolveIds (.throwErr msg :: rest) = resolveIds rest := rfl

lemma resolveIds_append (l1 l2 : List (PromiseEff T)) :
    resolveIds (l1 ++ l2) = resolveIds l1 ++ resolveIds l2 := by
  induction l1 with
  | nil => rfl
  | cons a rest ih => cases a <;> simp [ih]

lemma RQInv.fresh (T : Type) : RQInv (RemoteEventBridgeImpl.fresh T) [] := by
  simp [RQInv, RemoteEventBridgeImpl.fresh]

lemma RQInv.stepPreserved {s s' : RemoteEventBridgeImpl T} {resolved : List Nat}
    {a : RQAction T} {effs : List (PromiseEff T)}
    (hinv : RQInv s resolved) (h : s.step a = some (s', effs)) :
    RQInv s' (resolved ++ resolveIds effs) := by
  obtain ⟨hnd, hlt, hdead, hwaiter, htime⟩ := hinv
  cases a with
  | post e =>
    simp only [RemoteEventBridgeImpl.step, Option.some.injEq,
      Prod.mk.injEq] at h
    obtain ⟨rfl, rfl⟩ := h
    have hw2 : (s.post e).waiter = s.waiter := by
      simp only [RemoteEventBridgeImpl.post]
      split <;> rfl
    have ht2 : (s.post e).timeouts = s.timeouts := by
      simp only [RemoteEventBridgeImpl.post]
      split <;> rfl
    have hn2 : (s.post e).nextId = s.nextId := by
      simp only [RemoteEventBridgeImpl.post]
      split <;> rfl
    simp only [resolveIds_nil, List.append_nil]
    refine ⟨hnd, ?_, ?_, ?_, ?_⟩
    · intro i hi
      rw [hn2]
      exact hlt i hi
    · intro i hi
      rw [hw2]
      exact hdead i hi
    · intro w' hw'
      rw [hw2] at hw'
      rw [hn2, ht2]
      exact hwaiter w' hw'
    · intro t ht
      rw [ht2] at ht
      rw [hn2]
      exact htime t ht
  | poll =>
    simp only [RemoteEventBridgeImpl.step, Option.some.injEq] at h
    by_cases he : s.events.isEmpty
    · rcases hws : s.waiter with _ | w
      · have hpoll : s.poll =
            ({ s with nextId := s.nextId + 1, waiter := some s.nextId
                      timeouts := s.timeouts ++ [s.nextId] }, []) := by
          simp [RemoteEventBridgeImpl.poll, he, hws]
        rw [hpoll, Prod.mk.injEq] at h
        obtain ⟨rfl, rfl⟩ := h
        simp only [resolveIds_nil, List.append_nil]
        refine ⟨hnd, fun i hi => Nat.lt_succ_of_lt (hlt i hi), ?_, ?_, ?_⟩
        · intro i hi hcontra
          obtain rfl := Option.some.inj hcontra
          exact absurd (hlt _ hi) (lt_irrefl _)
        · intro w' hw'
          obtain rfl := Option.some.inj hw'
          exact ⟨Nat.lt_succ_self _, by simp⟩
        · intro t ht
          rcases List.mem_append.mp ht with ht | ht
          · exact Nat.lt_succ_of_lt (htime t ht)
          · obtain rfl := List.mem_singleton.mp ht
            exact Nat.lt_succ_self _
      · have hpoll : s.poll =
            ({ s with nextId := s.nextId + 1 },
             [.throwErr "cannot handle multiple waiters"]) := by
          simp [RemoteEventBridgeImpl.poll, he, hws]
        rw [hpoll, Prod.mk.injEq] at h
        obtain ⟨rfl, rfl⟩ := h
        simp only [resolveIds_throw, resolveIds_nil, List.append_nil]
        refine ⟨hnd, fun i hi => Nat.lt_succ_of_lt (hlt i hi),
          fun i hi => hdead i hi, ?_,
          fun t ht => Nat.lt_succ_of_lt (htime t ht)⟩
        intro w' hw'
        obtain ⟨h1, h2⟩ := hwaiter w' hw'
        exact ⟨Nat.lt_succ_of_lt h1, h2⟩
    · have hpoll : s.poll =
          ({ s with nextId := s.nextId + 1, events := [] },
           [.resolve s.nextId (some s.events)]) := by
        simp [RemoteEventBridgeImpl.poll, he]
      rw [hpoll, Prod.mk.injEq] at h
      obtain ⟨rfl, rfl⟩ := h
      have hnotmem : s.nextId ∉ resolved := fun hmem =>
        absurd (hlt _ hmem) (lt_irrefl _)
      simp only [resolveIds_resolve, resolveIds_nil]
      refine ⟨List.Nodup.append hnd (List.nodup_singleton _)
          (fun x hx hx' => hnotmem ((List.mem_singleton.mp hx') ▸ hx)),
        ?_, ?_, ?_, fun t ht => Nat.lt_succ_of_lt (htime t ht)⟩
      · intro i hi
        rcases List.mem_append.mp hi with hi | hi
        · exact Nat.lt_succ_of_lt (hlt i hi)
        · obtain rfl := List.mem_singleton.mp hi
          exact Nat.lt_succ_self _
      · intro i hi hcontra
        rcases List.mem_append.mp hi with hi | hi
        · exact hdead i hi hcontra
        · obtain rfl := List.mem_singleton.mp hi
          obtain ⟨h1, _⟩ := hwaiter _ hcontra
          exact absurd h1 (lt_irrefl _)
      · intro w' hw'
        obtain ⟨h1, h2⟩ := hwaiter w' hw'
        exact ⟨Nat.lt_succ_of_lt h1, h2⟩
  | microtask =>
    by_cases hm0 : s.microtasks = 0
    · simp [RemoteEventBridgeImpl.step, hm0] at h
    · simp only [RemoteEventBridgeImpl.step, if_pos hm0,
        Option.some.injEq] at h
      rcases hws : s.waiter with _ | w
      · have hmt : s.microtask =
            ({ s with microtasks := s.microtasks - 1
                      deferredNotify := false }, []) := by
          simp [RemoteEventBridgeImpl.microtask, hws]
        rw [hmt, Prod.mk.injEq] at h
        obtain ⟨rfl, rfl⟩ := h
        simp only [resolveIds_nil, List.append_nil]
        exact ⟨hnd, hlt, hdead, hwaiter, htime⟩
      · by_cases he : s.events.isEmpty
        · have hmt : s.microtask =
              ({ s with microtasks := s.microtasks - 1
                        deferredNotify := false }, []) := by
            simp [RemoteEventBridgeImpl.microtask, hws, he]
          rw [hmt, Prod.mk.injEq] at h
          obtain ⟨rfl, rfl⟩ := h
          simp only [resolveIds_nil, List.append_nil]
          exact ⟨hnd, hlt, hdead, hwaiter, htime⟩
        · have hmt : s.microtask =
              ({ s with microtasks := s.microtasks - 1
                        deferredNotify := false, events := []
                        waiter := none, timeouts := s.timeouts.erase w },
               [.resolve w (some s.events)]) := by
            simp [RemoteEventBridgeImpl.microtask,
              RemoteEventBridgeImpl.runWaiter, hws, he]
          rw [hmt, Prod.mk.injEq] at h
          obtain ⟨rfl, rfl⟩ := h
          have hwnot : w ∉ resolved := fun hmem => hdead w hmem hws
          simp only [resolveIds_resolve, resolveIds_nil]
          refine ⟨List.Nodup.append hnd (List.nodup_singleton _)
              (fun x hx hx' => hwnot ((List.mem_singleton.mp hx') ▸ hx)),
            ?_, ?_, ?_, ?_⟩
          · intro i hi
            rcases List.mem_append.mp hi with hi | hi
            · exact hlt i hi
            · obtain rfl := List.mem_singleton.mp hi
              exact (hwaiter _ hws).1
          · intro i hi hcontra
            exact Option.noConfusion hcontra
          · intro w' hw'
            exact Option.noConfusion hw'
          · intro t ht
            exact htime t (List.mem_of_mem_erase ht)
  | timeoutFire w =>
    by_cases hmem : w ∈ s.timeouts
    · simp only [RemoteEventBridgeImpl.step, if_pos hmem,
        Option.some.injEq] at h
      by_cases hws : s.waiter = some w
      · by_cases he : s.events.isEmpty
        · have htf : s.timeoutFire w =
              ({ s with timeouts := s.timeouts.erase w, waiter := none },
               [.resolve w none]) := by
            simp [RemoteEventBridgeImpl.timeoutFire, hws, he]
          rw [htf, Prod.mk.injEq] at h
          obtain ⟨rfl, rfl⟩ := h
          have hwnot : w ∉ resolved := fun hmem2 => hdead w hmem2 hws
          simp only [resolveIds_resolve, resolveIds_nil]
          refine ⟨List.Nodup.append hnd (List.nodup_singleton _)
              (fun x hx hx' => hwnot ((List.mem_singleton.mp hx') ▸ hx)),
            ?_, ?_, ?_, ?_⟩
          · intro i hi
            rcases List.mem_append.mp hi with hi | hi
            · exact hlt i hi
            · obtain rfl := List.mem_singleton.mp hi
              exact (hwaiter _ hws).1
          · intro i hi hcontra
            exact Option.noConfusion hcontra
          · intro w' hw'
            exact Option.noConfusion hw'
          · intro t ht
            exact htime t (List.mem_of_mem_erase ht)
        · have htf : s.timeoutFire w =
              ({ s with timeouts := s.timeouts.erase w, waiter := none
                        events := [] },
               [.resolve w (some s.events)]) := by
            simp [RemoteEventBridgeImpl.timeoutFire, hws, he]
          rw [htf, Prod.mk.injEq] at h
          obtain ⟨rfl, rfl⟩ := h
          have hwnot : w ∉ resolved := fun hmem2 => hdead w hmem2 hws
          simp only [resolveIds_resolve, resolveIds_nil]
          refine ⟨List.Nodup.append hnd (List.nodup_singleton _)
              (fun x hx hx' => hwnot ((List.mem_singleton.mp hx') ▸ hx)),
            ?_, ?_, ?_, ?_⟩
          · intro i hi
            rcases List.mem_append.mp hi with hi | hi
            · exact hlt i hi
            · obtain rfl := List.mem_singleton.mp hi
              exact (hwaiter _ hws).1
          · intro i hi hcontra
            exact Option.noConfusion hcontra
          · intro w' hw'
            exact Option.noConfusion hw'
          · intro t ht
            exact htime t (List.mem_of_mem_erase ht)
      · have htf : s.timeoutFire w =
            ({ s with timeouts := s.timeouts.erase w }, []) := by
          simp [RemoteEventBridgeImpl.timeoutFire, hws]
        rw [htf, Prod.mk.injEq] at h
        obtain ⟨rfl, rfl⟩ := h
        simp only [resolveIds_nil, List.append_nil]
        refine ⟨hnd, hlt, hdead, ?_,
          fun t ht => htime t (List.mem_of_mem_erase ht)⟩
        intro w' hw'
        obtain ⟨h1, h2⟩ := hwaiter w' hw'
        refine ⟨h1, (List.mem_erase_of_ne ?_).mpr h2⟩
        intro hc
        exact hws (hc ▸ hw')
    · simp [RemoteEventBridgeImpl.step, hmem] at h

lemma RQInv.runPreserved {s : RemoteEventBridgeImpl T} {resolved : List Nat}
    (hinv : RQInv s resolved) (acts : List (RQAction T)) :
    RQInv (s.run acts).1 (resolved ++ resolveIds (s.run acts).2) := by
  induction acts generalizing s resolved with
  | nil => simpa [RemoteEventBridgeImpl.run_nil] using hinv
  | cons a rest ih =>
    rcases h : s.step a with _ | ⟨s', effs⟩
    · rw [RemoteEventBridgeImpl.run_cons_skip _ h]
      exact ih hinv
    · rw [RemoteEventBridgeImpl.run_cons_step _ h]
      have h2 := ih (RQInv.stepPreserved hinv h)
      simpa [resolveIds_append, List.append_assoc] using h2

/-- C3: if a Waiter is pending and one or more posts occur before the scheduled
wake runs, exactly one coalesced wake is queued, no resolution happens during
the posts, and running the wake resolves the Waiter exactly once with all
accumulated events batched in one array, leaving the queue empty and the Waiter
cleared. -/
theorem coalesced_wake_single_resolution (s : RemoteEventBridgeImpl T) (w : Nat)
    (l : List T) (hw : s.waiter = some w) (hd : s.deferredNotify = false)
    (he : s.events = []) (hm : s.microtasks = 0) (hl : l ≠ []) :
    (s.run (l.map RQAction.post)).1.microtasks = 1 ∧
    (s.run (l.map RQAction.post)).2 = [] ∧
    s.run (l.map RQAction.post ++ [.microtask]) =
      ({ s with events := [], waiter := none, deferredNotify := false
                microtasks := 0, timeouts := s.timeouts.erase w },
       [.resolve w (some l)]) := by
  cases l with
  | nil => exact absurd rfl hl
  | cons e rest =>
    have hstep : s.step (.post e) = some (s.post e, []) := rfl
    have hpost : s.post e =
        { s with events := [e], deferredNotify := true, microtasks := 1 } := by
      simp [RemoteEventBridgeImpl.post, hw, hd, he, hm]
    have hposts : s.run ((e :: rest).map RQAction.post) =
        ({ s with events := e :: rest, deferredNotify := true
                  microtasks := 1 }, []) := by
      rw [List.map_cons, RemoteEventBridgeImpl.run_cons_step _ hstep, hpost,
        RemoteEventBridgeImpl.run_posts_deferred rest _ (by simp)]
      simp
    refine ⟨by rw [hposts], by rw [hposts], ?_⟩
    have hmt : ({ s with events := e :: rest, deferredNotify := true
                         microtasks := 1 } : RemoteEventBridgeImpl T).step .microtask =
        some ({ s with events := [], waiter := none, deferredNotify := false
                       microtasks := 0, timeouts := s.timeouts.erase w },
              [.resolve w (some (e :: rest))]) := by
      simp [RemoteEventBridgeImpl.step, RemoteEventBridgeImpl.microtask,
        RemoteEventBridgeImpl.runWaiter, hw]
    rw [RemoteEventBridgeImpl.run_append, hposts]
    simp only [RemoteEventBridgeImpl.run_cons_step _ hmt,
      RemoteEventBridgeImpl.run_nil]
    simp

/-- Witness for C3: two posts against a registered Waiter queue exactly one
wake, and the wake resolves once with both events batched. -/
theorem coalesced_wake_single_resolution_witness :
    ((⟨[], some 0, false, 0, [0], 1⟩ : RemoteEventBridgeImpl Nat).run
        ([7, 8].map RQAction.post)).1.microtasks = 1 ∧
    ((⟨[], some 0, false, 0, [0], 1⟩ : RemoteEventBridgeImpl Nat).run
        ([7, 8].map RQAction.post)).2 = [] ∧
    (⟨[], some 0, false, 0, [0], 1⟩ : RemoteEventBridgeImpl Nat).run
        ([7, 8].map RQAction.post ++ [.microtask]) =
      (⟨[], none, false, 0, [], 1⟩, [.resolve 0 (some [7, 8])]) := by
  exact coalesced_wake_single_resolution
    (⟨[], some 0, false, 0, [0], 1⟩ : RemoteEventBridgeImpl Nat) 0 [7, 8]
    rfl rfl rfl rfl (by decide)

/-- C4: when the timeout fires while the registered Waiter is still current,
poll resolves with the queued events if any are present at that moment (data
wins the race against the timeout) and otherwise with null; in both cases the
Waiter is cleared and the queue is empty afterward. -/
theorem timeout_prefers_data_over_null (s : RemoteEventBridgeImpl T) (w : Nat)
    (hw : s.waiter = some w) :
    (s.events ≠ [] → s.timeoutFire w =
      ({ s with events := [], waiter := none
                timeouts := s.timeouts.erase w },
       [.resolve w (some s.events)])) ∧
    (s.events = [] → s.timeoutFire w =
      ({ s with waiter := none, timeouts := s.timeouts.erase w },
       [.resolve w none])) := by
  constructor
  · intro he
    simp [RemoteEventBridgeImpl.timeoutFire, hw, he]
  · intro he
    simp [RemoteEventBridgeImpl.timeoutFire, hw, he]

/-- Witness for C4: a current-Waiter timeout with one queued event returns the
event; with an empty queue it returns null; both clear the Waiter. -/
theorem timeout_prefers_data_over_null_witness :
    (⟨[3], some 0, false, 0, [0], 1⟩ : RemoteEventBridgeImpl Nat).timeoutFire 0 =
      (⟨[], none, false, 0, [], 1⟩, [.resolve 0 (some [3])]) ∧
    (⟨[], some 1, false, 0, [1], 2⟩ : RemoteEventBridgeImpl Nat).timeoutFire 1 =
      (⟨[], none, false, 0, [], 2⟩, [.resolve 1 none]) := by
  exact ⟨(timeout_prefers_data_over_null
            (⟨[3], some 0, false, 0, [0], 1⟩ : RemoteEventBridgeImpl Nat) 0
            rfl).1 (by decide),
         (timeout_prefers_data_over_null
            (⟨[], some 1, false, 0, [1], 2⟩ : RemoteEventBridgeImpl Nat) 1
            rfl).2 rfl⟩

/-- Witness for the amended C1 at the concrete post sequence [4, 9]. -/
theorem nonempty_posts_single_poll_drains_witness :
    (RemoteEventBridgeImpl.fresh Nat).run
        [.post 4, .post 9, .poll] =
      ({ events := [], waiter := none, deferredNotify := false,
         microtasks := 0, timeouts := [], nextId := 1 },
       [.resolve 0 (some [4, 9])]) := by
  exact nonempty_posts_single_poll_drains [4, 9] (by decide)

/-- C5: over every schedule of posts, polls, microtasks and timer firings from a
fresh queue, no poll promise is resolved twice (the resolved ids are nodup);
while a Waiter is registered its timeout remains scheduled, so the Waiter is
always eventually cleared either by event delivery or by timeout; and a timeout
callback whose Waiter is no longer the registered one is a no-op apart from
descheduling itself — decided by identity of the registered waiter, not by
elapsed time. -/
theorem waiter_cleared_once_and_stale_timeout_noop (acts : List (RQAction T)) :
    (resolveIds ((RemoteEventBridgeImpl.fresh T).run acts).2).Nodup ∧
    (∀ w, ((RemoteEventBridgeImpl.fresh T).run acts).1.waiter = some w →
      w ∈ ((RemoteEventBridgeImpl.fresh T).run acts).1.timeouts) ∧
    (∀ (t : RemoteEventBridgeImpl T) (w : Nat), t.waiter ≠ some w →
      t.timeoutFire w = ({ t with timeouts := t.timeouts.erase w }, [])) := by
  have hrun := RQInv.runPreserved (RQInv.fresh T) acts
  obtain ⟨hnd, _, _, hwaiter, _⟩ := hrun
  refine ⟨by simpa using hnd, fun w hw => (hwaiter w hw).2, ?_⟩
  intro t w hne
  simp [RemoteEventBridgeImpl.timeoutFire, hne]

/-- Witness for C5 at the schedule [poll, post 3] and a concrete stale-timeout
state. -/
theorem waiter_cleared_once_and_stale_timeout_noop_witness :
    (resolveIds ((RemoteEventBridgeImpl.fresh Nat).run
      [.poll, .post 3]).2).Nodup ∧
    (0 : Nat) ∈ ((RemoteEventBridgeImpl.fresh Nat).run
      [.poll, .post 3]).1.timeouts ∧
    (⟨[], some 0, false, 0, [0, 1], 2⟩ :
        RemoteEventBridgeImpl Nat).timeoutFire 1 =
      (⟨[], some 0, false, 0, [0], 2⟩, []) := by
  refine ⟨(waiter_cleared_once_and_stale_timeout_noop [.poll, .post 3]).1,
    (waiter_cleared_once_and_stale_timeout_noop [.poll, .post 3]).2.1 0
      (by decide),
    (waiter_cleared_once_and_stale_timeout_noop
      ([] : List (RQAction Nat))).2.2
      (⟨[], some 0, false, 0, [0, 1], 2⟩ : RemoteEventBridgeImpl Nat) 1
      (by decide)⟩

@[simp] lemma disposeCount_nil : disposeCount ([] : List (Emission T)) = 0 :=
  rfl

@[simp] lemma disposeCount_dispose_cons (rest : List (Emission T)) :
    disposeCount (.dispose :: rest) = disposeCount rest + 1 := rfl

@[simp] lemma disposeCount_event_cons (e : T) (rest : List (Emission T)) :
    disposeCount (.event e :: rest) = disposeCount rest := rfl

@[simp] lemma disposeCount_append (l1 l2 : List (Emission T)) :
    disposeCount (l1 ++ l2) = disposeCount l1 + disposeCount l2 := by
  induction l1 with
  | nil => simp
  | cons a rest ih => cases a <;> simp [ih] <;> omega

@[simp] lemma disposeCount_map_event (l : List T) :
    disposeCount (l.map Emission.event) = 0 := by
  induction l with
  | nil => rfl
  | cons e rest ih => simpa using ih

lemma EventBridgeHost.run_empty (s : EventBridgeHost T) : s.run [] = s := rfl

lemma EventBridgeHost.run_skip {s : EventBridgeHost T} {a : HostAction T}
    (rest : List (HostAction T)) (h : s.step a = none) :
    s.run (a :: rest) = s.run rest := by
  simp only [EventBridgeHost.run, h]

lemma EventBridgeHost.run_consume {s s' : EventBridgeHost T}
    {a : HostAction T} (rest : List (HostAction T)) (h : s.step a = some s') :
    s.run (a :: rest) = s'.run rest := by
  simp only [EventBridgeHost.run, h]

lemma teardownInv_init : teardownInv (EventBridgeHost.init T) := by
  simp [teardownInv, EventBridgeHost.init]

lemma teardownInv_finalize {s : EventBridgeHost T} (hinv : teardownInv s)
    (hp : s.phase ≠ .done) : teardownInv s.finalize := by
  obtain ⟨_, h2⟩ := hinv
  obtain ⟨ha, hc⟩ := h2 hp
  constructor
  · intro _
    exact ⟨rfl, by simp [EventBridgeHost.finalize, hc]⟩
  · intro hcontra
    exact absurd rfl hcontra

lemma teardownInv_step {s s' : EventBridgeHost T} {a : HostAction T}
    (hinv : teardownInv s) (h : s.step a = some s') : teardownInv s' := by
  obtain ⟨h1, h2⟩ := hinv
  cases a with
  | disposeCall =>
    simp only [EventBridgeHost.step, Option.some.injEq] at h
    subst h
    exact ⟨fun hp => h1 hp, fun hp => h2 hp⟩
  | race o =>
    cases hp : s.phase with
    | looping =>
      have hnd : s.phase ≠ .done := by simp [hp]
      obtain ⟨ha, hc⟩ := h2 hnd
      simp only [EventBridgeHost.step, hp] at h
      cases o with
      | cancelled =>
        by_cases hc2 : s.cancelRequested
        · simp only [hc2, if_true, Option.some.injEq] at h
          subst h
          refine ⟨fun hd => absurd hd ?_, fun _ => ⟨ha, hc⟩⟩
          simp [EventBridgeHost.exitLoop]
        · simp [hc2] at h
      | pollNull =>
        simp only [Option.some.injEq] at h
        subst h
        exact ⟨h1, h2⟩
      | events l =>
        simp only [Option.some.injEq] at h
        subst h
        refine ⟨fun hd => absurd hd ?_, fun _ => ⟨ha, by simp [hc]⟩⟩
        simp [hp]
      | pollError targetClose =>
        cases targetClose with
        | true =>
          simp only [if_true, Option.some.injEq] at h
          subst h
          exact teardownInv_finalize ⟨h1, h2⟩ hnd
        | false =>
          simp only [Bool.false_eq_true, if_false, Option.some.injEq] at h
          subst h
          refine ⟨fun hd => absurd hd ?_, fun _ => ⟨ha, hc⟩⟩
          simp [EventBridgeHost.exitLoop]
    | releasing => simp [EventBridgeHost.step, hp] at h
    | done => simp [EventBridgeHost.step, hp] at h
  | releaseComplete ok =>
    cases hp : s.phase with
    | looping => simp [EventBridgeHost.step, hp] at h
    | done => simp [EventBridgeHost.step, hp] at h
    | releasing =>
      simp only [EventBridgeHost.step, hp, Option.some.injEq] at h
      subst h
      exact teardownInv_finalize ⟨h1, h2⟩ (by simp [hp])

lemma teardownInv_run {s : EventBridgeHost T} (hinv : teardownInv s)
    (acts : List (HostAction T)) : teardownInv (s.run acts) := by
  induction acts generalizing s with
  | nil => simpa [EventBridgeHost.run_empty] using hinv
  | cons a rest ih =>
    rcases h : s.step a with _ | s'
    · rw [EventBridgeHost.run_skip _ h]
      exact ih hinv
    · rw [EventBridgeHost.run_consume _ h]
      exact ih (teardownInv_step hinv h)

/-- C6: over every schedule of loop outcomes, release completions and dispose()
calls, the dispose notification is emitted at most once; once the worker is
done, active is false and the notification was emitted exactly once; before
that, active is still true and it was never emitted; and a dispose() call by
itself only sets the cancellation flag — it never re-triggers teardown or
re-emits the notification. -/
theorem teardown_runs_exactly_once (acts : List (HostAction T)) :
    disposeCount ((EventBridgeHost.init T).run acts).emissions ≤ 1 ∧
    (((EventBridgeHost.init T).run acts).phase = .done →
      ((EventBridgeHost.init T).run acts).active = false ∧
      disposeCount ((EventBridgeHost.init T).run acts).emissions = 1) ∧
    (((EventBridgeHost.init T).run acts).phase ≠ .done →
      ((EventBridgeHost.init T).run acts).active = true ∧
      disposeCount ((EventBridgeHost.init T).run acts).emissions = 0) ∧
    (∀ t : EventBridgeHost T,
      t.step .disposeCall = some { t with cancelRequested := true }) := by
  obtain ⟨h1, h2⟩ := teardownInv_run teardownInv_init acts
  refine ⟨?_, h1, h2, fun t => rfl⟩
  by_cases hp : ((EventBridgeHost.init T).run acts).phase = .done
  · exact le_of_eq (h1 hp).2
  · simp [(h2 hp).2]

/-- Witness for C6 at the schedule dispose, cancellation won, release done. -/
theorem teardown_runs_exactly_once_witness :
    disposeCount ((EventBridgeHost.init Nat).run
      [.disposeCall, .race .cancelled, .releaseComplete true]).emissions ≤ 1 ∧
    ((EventBridgeHost.init Nat).run
      [.disposeCall, .race .cancelled, .releaseComplete true]).active = false ∧
    disposeCount ((EventBridgeHost.init Nat).run
      [.disposeCall, .race .cancelled, .releaseComplete true]).emissions = 1 ∧
    (EventBridgeHost.init Nat).step .disposeCall =
      some { EventBridgeHost.init Nat with cancelRequested := true } := by
  have h := teardown_runs_exactly_once (T := Nat)
    [.disposeCall, .race .cancelled, .releaseComplete true]
  have hd := h.2.1 (by decide)
  exact ⟨h.1, hd.1, hd.2, h.2.2.2 (EventBridgeHost.init Nat)⟩

/-- C7: completion of the remote release is handled identically whether the
release succeeded or failed (the failure is swallowed, never propagated); a
done worker — which is what dispose() awaits — always has active = false; and
the worker can only become done either from the releasing phase through the
completion of the release attempt, or straight from the loop when the failure
was a TargetCloseError and the release is skipped.  Hence dispose() resolves
only after the loop has exited and any release attempt has completed. -/
theorem dispose_after_loop_and_release :
    (∀ s : EventBridgeHost T, s.step (.releaseComplete false) =
      s.step (.releaseComplete true)) ∧
    (∀ acts : List (HostAction T),
      ((EventBridgeHost.init T).run acts).phase = .done →
      ((EventBridgeHost.init T).run acts).active = false) ∧
    (∀ (s s' : EventBridgeHost T) (a : HostAction T),
      s.step a = some s' → s'.phase = .done → s.phase ≠ .done →
      (s.phase = .releasing ∧
        (a = .releaseComplete true ∨ a = .releaseComplete false)) ∨
      (s.phase = .looping ∧ a = .race (.pollError true))) := by
  refine ⟨fun s => rfl, ?_, ?_⟩
  · intro acts hdone
    obtain ⟨h1, _⟩ := teardownInv_run teardownInv_init acts
    exact (h1 hdone).1
  · intro s s' a h hdone hnot
    cases a with
    | disposeCall =>
      simp only [EventBridgeHost.step, Option.some.injEq] at h
      subst h
      exact absurd hdone hnot
    | race o =>
      cases hp : s.phase with
      | looping =>
        simp only [EventBridgeHost.step, hp] at h
        cases o with
        | cancelled =>
          by_cases hc2 : s.cancelRequested
          · simp only [hc2, if_true, Option.some.injEq] at h
            subst h
            simp [EventBridgeHost.exitLoop] at hdone
          · simp [hc2] at h
        | pollNull =>
          simp only [Option.some.injEq] at h
          subst h
          exact absurd hdone hnot
        | events l =>
          simp only [Option.some.injEq] at h
          subst h
          exact absurd hdone (by simp)
        | pollError targetClose =>
          cases targetClose with
          | true => exact Or.inr ⟨rfl, rfl⟩
          | false =>
            simp only [Bool.false_eq_true, if_false, Option.some.injEq] at h
            subst h
            simp [EventBridgeHost.exitLoop] at hdone
      | releasing =>
        cases o <;> simp [EventBridgeHost.step, hp] at h
      | done => exact absurd hp hnot
    | releaseComplete ok =>
      cases hp : s.phase with
      | looping => simp [EventBridgeHost.step, hp] at h
      | done => exact absurd hp hnot
      | releasing =>
        cases ok with
        | true => exact Or.inl ⟨rfl, Or.inl rfl⟩
        | false => exact Or.inl ⟨rfl, Or.inr rfl⟩

/-- Witness for C7: release failure and success coincide on a concrete state;
after a full cancel-release schedule the done bridge is inactive; and the
concrete done-transition out of releasing is classified. -/
theorem dispose_after_loop_and_release_witness :
    ((EventBridgeHost.init Nat).step (.releaseComplete false) =
      (EventBridgeHost.init Nat).step (.releaseComplete true)) ∧
    ((EventBridgeHost.init Nat).run
      [.disposeCall, .race .cancelled, .releaseComplete false]).active
        = false ∧
    ((({ EventBridgeHost.init Nat with phase := .releasing }).phase
        = .releasing ∧
      ((HostAction.releaseComplete true : HostAction Nat)
          = .releaseComplete true ∨
        (HostAction.releaseComplete true : HostAction Nat)
          = .releaseComplete false)) ∨
     (({ EventBridgeHost.init Nat with phase := .releasing }).phase
        = .looping ∧
      (HostAction.releaseComplete true : HostAction Nat)
        = .race (.pollError true))) := by
  refine ⟨dispose_after_loop_and_release.1 (EventBridgeHost.init Nat),
    dispose_after_loop_and_release.2.1
      [.disposeCall, .race .cancelled, .releaseComplete false] (by decide),
    dispose_after_loop_and_release.2.2
      { EventBridgeHost.init Nat with phase := .releasing }
      ({ EventBridgeHost.init Nat with phase := .releasing }).finalize
      (.releaseComplete true) (by simp [EventBridgeHost.step]) rfl
      (by decide)⟩

/-- C8: in the loop, a poll failure that is a TargetCloseError moves the worker
straight to done — the release attempt is skipped and no warning is logged —
while any other poll failure logs one warning and moves the worker to the
releasing phase, where the release is still attempted; in both cases the loop
has terminated: no further race outcome is ever consumed. -/
theorem poll_failure_terminates_loop (s : EventBridgeHost T)
    (hp : s.phase = .looping) :
    s.step (.race (.pollError true)) =
      some { s with active := false, phase := .done
                    emissions := s.emissions ++ [.dispose] } ∧
    s.step (.race (.pollError false)) =
      some { s with warnings := s.warnings + 1, phase := .releasing } ∧
    (∀ t : EventBridgeHost T, t.phase ≠ .looping →
      ∀ o : PollOutcome T, t.step (.race o) = none) := by
  refine ⟨?_, ?_, ?_⟩
  · simp [EventBridgeHost.step, hp, EventBridgeHost.exitLoop,
      EventBridgeHost.finalize]
  · simp [EventBridgeHost.step, hp, EventBridgeHost.exitLoop]
  · intro t ht o
    cases hq : t.phase with
    | looping => exact absurd hq ht
    | releasing => simp [EventBridgeHost.step, hq]
    | done => simp [EventBridgeHost.step, hq]

/-- Witness for C8 at the initial looping state and a concrete done state. -/
theorem poll_failure_terminates_loop_witness :
    (EventBridgeHost.init Nat).step (.race (.pollError true)) =
      some { EventBridgeHost.init Nat with
             active := false, phase := .done, emissions := [.dispose] } ∧
    (EventBridgeHost.init Nat).step (.race (.pollError false)) =
      some { EventBridgeHost.init Nat with
             warnings := 1, phase := .releasing } ∧
    ({ EventBridgeHost.init Nat with phase := .done }).step
      (.race .pollNull) = none := by
  have h := poll_failure_terminates_loop (EventBridgeHost.init Nat) rfl
  exact ⟨h.1, h.2.1,
    h.2.2 { EventBridgeHost.init Nat with phase := .done } (by decide)
      .pollNull⟩

lemma killBeforeReject_bail (b : Bool) (f : LaunchFailure) :
    killBeforeReject b (bail f) = true := rfl

lemma killBeforeReject_rm_bail (b : Bool) (f : LaunchFailure) :
    killBeforeReject b (ProcAction.removeListeners :: bail f) = true := rfl

lemma killBeforeReject_handleAddress (b : Bool)
    (parse : String → Option URLModel) (port : Nat) (a : String) :
    killBeforeReject b (handleAddress parse port a) = true := by
  unfold handleAddress
  rcases parse a with _ | addr
  · simp [killBeforeReject, bail]
  · rcases hv : validateAddress addr port with _ | f <;>
      simp [hv, killBeforeReject, bail]

/-- C9: every failure path of launchChrome kills the spawned process before the
failure is surfaced — in the action sequence emitted by any event reaching the
pending launch, every reject is preceded by a kill — and the seven failure
paths (startup timeout, scan-buffer overflow, listen-failure diagnostic,
address parse error, unexpected scheme, port mismatch, premature exit), probed
one by one, reject with pairwise distinct reasons. -/
theorem launch_failures_kill_process_first :
    (∀ (parse : String → Option URLModel) (port : Nat) (st : LaunchState)
        (ev : LaunchEvent),
      killBeforeReject false (handleLaunchEvent parse port st ev).2 = true) ∧
    rejectedKinds (handleLaunchEvent launchProbeParse 9222 LaunchState.start
        .timeoutFire).2 ++
      rejectedKinds (handleLaunchEvent launchProbeParse 9222 LaunchState.start
        (.stderrChunk 8192 [])).2 ++
      rejectedKinds (handleLaunchEvent launchProbeParse 9222 LaunchState.start
        (.stderrChunk 39 ["Cannot start http server for devtools."])).2 ++
      rejectedKinds (handleLaunchEvent launchProbeParse 9222 LaunchState.start
        (.stderrChunk 30 ["DevTools listening on garbage"])).2 ++
      rejectedKinds (handleLaunchEvent launchProbeParse 9222 LaunchState.start
        (.stderrChunk 46
          ["DevTools listening on http://127.0.0.1:9222/x"])).2 ++
      rejectedKinds (handleLaunchEvent launchProbeParse 9222 LaunchState.start
        (.stderrChunk 44 ["DevTools listening on ws://127.0.0.1:9221/x"])).2 ++
      rejectedKinds (handleLaunchEvent launchProbeParse 9222 LaunchState.start
        (.procExit "1")).2 = [0, 1, 2, 3, 4, 5, 6] ∧
    ([0, 1, 2, 3, 4, 5, 6] : List Nat).Nodup := by
  refine ⟨?_, by decide, by decide⟩
  intro parse port st ev
  by_cases hs : st.settled
  · simp [handleLaunchEvent, hs, killBeforeReject]
  · cases ev with
    | timeoutFire => simp [handleLaunchEvent, hs, killBeforeReject_bail]
    | procExit d => simp [handleLaunchEvent, hs, killBeforeReject_bail]
    | stderrChunk bytes newLines =>
      simp only [handleLaunchEvent, hs, Bool.false_eq_true, if_false]
      unfold stderrListener
      by_cases hov : st.ptr + bytes ≥ 8192
      · simp [hov, killBeforeReject_bail]
      · simp only [hov, if_false]
        rcases scanLines (st.lines ++ newLines) with _ | a
        · simp [killBeforeReject_bail]
        · simp [killBeforeReject_handleAddress]
        · simp [killBeforeReject]

/-- C10: an announced devtools address carrying no explicit port component is
validated against the scheme's default port — 443 for wss:, 80 for ws: — and
is accepted exactly when the requested/allocated port equals that default;
otherwise validation fails with the port-mismatch reason. -/
theorem announced_address_default_port (addr : URLModel) (port : Nat)
    (hp : addr.port = none)
    (hs : addr.protocol = "ws:" ∨ addr.protocol = "wss:") :
    (validateAddress addr port = none ↔
      port = if addr.protocol = "wss:" then 443 else 80) ∧
    (port ≠ (if addr.protocol = "wss:" then 443 else 80) →
      validateAddress addr port = some (.portMismatch port none)) := by
  rcases hs with hs | hs
  · refine ⟨?_, ?_⟩
    · by_cases hpe : port = 80
      · subst hpe
        simp [validateAddress, hs, hp]
      · simp [validateAddress, hs, hp, hpe, Ne.symm hpe]
    · intro hne
      simp [hs] at hne
      simp [validateAddress, hs, hp, Ne.symm hne]
  · refine ⟨?_, ?_⟩
    · by_cases hpe : port = 443
      · subst hpe
        simp [validateAddress, hs, hp]
      · simp [validateAddress, hs, hp, hpe, Ne.symm hpe]
    · intro hne
      simp [hs] at hne
      simp [validateAddress, hs, hp, Ne.symm hne]

/-- Witness for C10: a ws: address without an explicit port is accepted when
the requested port is 80, and rejected with the port mismatch at 9222. -/
theorem announced_address_default_port_witness :
    (validateAddress { protocol := "ws:", port := none, rest := "h" } 80 =
        none ↔ (80 : Nat) = 80) ∧
    validateAddress { protocol := "ws:", port := none, rest := "h" } 9222 =
      some (.portMismatch 9222 none) := by
  refine ⟨(announced_address_default_port
      { protocol := "ws:", port := none, rest := "h" } 80 rfl (Or.inl rfl)).1,
    (announced_address_default_port
      { protocol := "ws:", port := none, rest := "h" } 9222 rfl
      (Or.inl rfl)).2 (by decide)⟩
